import Mathlib

/-!
Verification development for the labour-attendance application
(`src/App.jsx`).  The pure logic of the app — calendar range arithmetic
(`dateRangeDays`), the statistics engine (`computeStats`), the roster
mutations (`addLabour`, `togglePresent`, `changeTime`, `removeLabour`) and
the report layout (`generatePDF`) — is shallowly embedded below.

Modelling conventions:
* A calendar date input (the `YYYY-MM-DD` string at the boundary) is a
  `DateStr` of its numeric fields; `validDate` captures exactly when the
  JavaScript `new Date(s + 'T00:00:00')` parse of such a string succeeds
  (fields in range for the proleptic Gregorian calendar, 4-digit year).
* A parsed date is identified with its day number `dayNumber` (days since
  0000-01-01); JavaScript `Date` comparison, day-stepping
  (`setDate(getDate()+1)`) and `getDay()` correspond to `≤`/`+1`/`% 7` on
  day numbers.  `dayNumber d % 7 = 1` means the day is a Sunday
  (0000-01-01 was a Saturday).
* A worker's `records` object is an association list from day number to
  record; JavaScript property read/write correspond to `List.lookup` and
  `setRec`.
* Operations that throw or bail out in the app return `Option`/`Except`
  here; `none`/`error` means the operation was rejected and no new roster
  state was produced.
-/

namespace Attendance

/-- Attendance status stored in a record (`'Present'` / `'Absent'`). -/
inductive Status where
  | Present : Status
  | Absent : Status
deriving DecidableEq, Repr

instance : BEq Status := ⟨fun a b => decide (a = b)⟩

/-- An attendance record `{ status, time }`. -/
structure AttendanceRecord where
  status : Status
  time : String
deriving DecidableEq, Repr

/-- A worker (`labour`): a name and the per-date record mapping,
keyed by day number. -/
structure Worker where
  name : String
  records : List (Nat × AttendanceRecord)
deriving DecidableEq, Repr

/-- Per-worker statistics row produced by `computeStats`. -/
structure WorkerStats where
  name : String
  present : Nat
  absent : Nat
  late : Nat
  workingDays : Nat
  sundays : Nat
deriving DecidableEq, Repr

/-- Range metadata produced by `dateRangeDays`. -/
structure RangeInfo where
  total : Nat
  sundays : Nat
  workingDays : Nat
deriving DecidableEq, Repr

/-- The numeric fields of a `YYYY-MM-DD` date string. -/
structure DateStr where
  year : Nat
  month : Nat
  day : Nat
deriving DecidableEq, Repr

/-- Gregorian leap-year test. -/
def isLeap (y : Nat) : Bool :=
  (y % 4 == 0 && y % 100 != 0) || y % 400 == 0

/-- Number of days in month `m` (1–12) of year `y`; 0 for an invalid month. -/
def daysInMonth (y m : Nat) : Nat :=
  match m with
  | 1 => 31
  | 2 => if isLeap y then 29 else 28
  | 3 => 31
  | 4 => 30
  | 5 => 31
  | 6 => 30
  | 7 => 31
  | 8 => 31
  | 9 => 30
  | 10 => 31
  | 11 => 30
  | 12 => 31
  | _ => 0

/-- Number of leap years strictly before year `y` (counting year 0, which
is a leap year in the proleptic Gregorian calendar). -/
def leapsBefore (y : Nat) : Nat :=
  (y + 3) / 4 - (y + 99) / 100 + (y + 399) / 400

/-- Days in the years strictly before year `y`, counted from 0000-01-01. -/
def daysBeforeYear (y : Nat) : Nat :=
  365 * y + leapsBefore y

/-- Days in the months of year `y` strictly before month `m`. -/
def daysBeforeMonth (y m : Nat) : Nat :=
  (List.range (m - 1)).foldl (fun acc k => acc + daysInMonth y (k + 1)) 0

/-- Day number of a date: days elapsed since 0000-01-01.  This is the
timestamp abstraction of the JavaScript `Date`: comparison of `Date`
values is comparison of day numbers, and `setDate(getDate()+1)` is `+1`. -/
def dayNumber (d : DateStr) : Nat :=
  daysBeforeYear d.year + daysBeforeMonth d.year d.month + (d.day - 1)

/-- Whether `new Date("YYYY-MM-DD" + 'T00:00:00')` parses to a valid date:
four-digit year and in-range month/day. -/
def validDate (d : DateStr) : Bool :=
  d.year ≤ 9999 && 1 ≤ d.month && d.month ≤ 12 && 1 ≤ d.day &&
    d.day ≤ daysInMonth d.year d.month

/-- A day number falls on a Sunday (`getDay() === 0`).  Day 0
(0000-01-01) was a Saturday, so Sundays are the days `≡ 1 (mod 7)`. -/
def isSundayDay (n : Nat) : Bool :=
  n % 7 == 1

/-- The loop of `dateRangeDays`: starting from day `s`, walk `n`
consecutive days, counting days and Sundays. -/
def rangeCount : Nat → Nat → Nat × Nat
  | 0, _ => (0, 0)
  | n + 1, s =>
    let rest := rangeCount n (s + 1)
    (rest.1 + 1, rest.2 + (if isSundayDay s then 1 else 0))

/-- Embedding of `dateRangeDays(start, end)` from `src/App.jsx`: `null` (here `none`)
when either date is invalid or start is after end; otherwise the total
day count, Sunday count and working-day count of the inclusive range. -/
def dateRangeDays (d1 d2 : DateStr) : Option RangeInfo :=
  if validDate d1 && validDate d2 && dayNumber d1 ≤ dayNumber d2 then
    let c := rangeCount (dayNumber d2 + 1 - dayNumber d1) (dayNumber d1)
    some ⟨c.1, c.2, c.1 - c.2⟩
  else
    none

/-- The ascending list of day numbers of the inclusive range `[s, e]`. -/
def dayList (s e : Nat) : List Nat :=
  (List.range (e + 1 - s)).map (· + s)

/-- JavaScript object write `records[k] = v`: replace the entry for key
`k` if present, otherwise append it. -/
def setRec (recs : List (Nat × AttendanceRecord)) (k : Nat)
    (v : AttendanceRecord) : List (Nat × AttendanceRecord) :=
  match recs.lookup k with
  | none => recs ++ [(k, v)]
  | some _ => recs.map (fun p => if p.1 = k then (k, v) else p)

/-- The per-worker loop of `computeStats`: starting from day `s`, walk `n`
consecutive days; for each day with a `Present` record increment
`present` (and `late` when the record's time is truthy and differs from
`'09:00'`), otherwise increment `absent` unless the day is a Sunday.
Returns `(present, absent, late)`. -/
def statsCount (recs : List (Nat × AttendanceRecord)) :
    Nat → Nat → Nat × Nat × Nat
  | 0, _ => (0, 0, 0)
  | n + 1, s =>
    let rest := statsCount recs n (s + 1)
    match recs.lookup s with
    | some r =>
      if r.status = Status.Present then
        (rest.1 + 1, rest.2.1,
          rest.2.2 + (if r.time ≠ "" ∧ r.time ≠ "09:00" then 1 else 0))
      else
        (rest.1, rest.2.1 + (if isSundayDay s then 0 else 1), rest.2.2)
    | none =>
      (rest.1, rest.2.1 + (if isSundayDay s then 0 else 1), rest.2.2)

/-- Embedding of `computeStats(start, end)` from `src/App.jsx` over a roster snapshot:
`none` when the range is invalid, otherwise the range metadata together
with one `WorkerStats` per worker, in roster order. -/
def computeStats (labours : List Worker) (d1 d2 : DateStr) :
    Option (RangeInfo × List WorkerStats) :=
  match dateRangeDays d1 d2 with
  | none => none
  | some dr =>
    some (dr, labours.map (fun lab =>
      let c := statsCount lab.records (dayNumber d2 + 1 - dayNumber d1)
        (dayNumber d1)
      ⟨lab.name, c.1, c.2.1, c.2.2, dr.workingDays, dr.sundays⟩))

/-- Failure modes of `addLabour`: blank name, or a name already on the
roster (the app shows an alert and leaves the roster unchanged). -/
inductive AddError where
  | emptyName : AddError
  | duplicateName : AddError
deriving DecidableEq, Repr

/-- Embedding of JavaScript `String.prototype.trim`: drop whitespace from
both ends of the string. -/
def jsTrim (s : String) : String :=
  String.mk (((s.data.dropWhile Char.isWhitespace).reverse.dropWhile
    Char.isWhitespace).reverse)

/-- Embedding of `addLabour` from `src/App.jsx`: trim the name; bail out on an empty
trimmed name or an exact duplicate, otherwise append a new worker with an
empty record mapping. -/
def addLabour (labours : List Worker) (newName : String) :
    Except AddError (List Worker) :=
  let name := jsTrim newName
  if name = "" then
    Except.error AddError.emptyName
  else if labours.any (fun l => l.name = name) then
    Except.error AddError.duplicateName
  else
    Except.ok (labours ++ [⟨name, []⟩])

/-- The record update of `togglePresent` on one worker's record mapping:
read the record for the date (defaulting to `{ status: 'Absent', time:
'09:00' }`), flip its status, and write it back. -/
def toggleRecord (recs : List (Nat × AttendanceRecord)) (date : Nat) :
    List (Nat × AttendanceRecord) :=
  let rec0 := (recs.lookup date).getD ⟨Status.Absent, "09:00"⟩
  let newStatus :=
    if rec0.status = Status.Present then Status.Absent else Status.Present
  setRec recs date { rec0 with status := newStatus }

/-- Embedding of `togglePresent(index)` from `src/App.jsx` on the selected `date`:
apply `toggleRecord` to the indexed worker's records.  `none` when the
index is out of bounds (the app would throw there). -/
def togglePresent (labours : List Worker) (index : Nat) (date : Nat) :
    Option (List Worker) :=
  if h : index < labours.length then
    let l := labours.get ⟨index, h⟩
    some (labours.set index { l with records := toggleRecord l.records date })
  else
    none

/-- The record update of `changeTime` on one worker's record mapping:
materialize `{ status: 'Absent', time: '09:00' }` when no record exists
for the date, then overwrite the record's time with `newTime`. -/
def setTimeRecords (recs : List (Nat × AttendanceRecord)) (date : Nat)
    (newTime : String) : List (Nat × AttendanceRecord) :=
  let recs1 :=
    if (recs.lookup date).isNone then
      setRec recs date ⟨Status.Absent, "09:00"⟩
    else
      recs
  match recs1.lookup date with
  | some r => setRec recs1 date { r with time := newTime }
  | none => recs1

/-- Embedding of `changeTime(index, newTime)` from `src/App.jsx` on the selected
`date`: apply `setTimeRecords` to the indexed worker's records.  `none`
when the index is out of bounds (the app would throw there). -/
def changeTime (labours : List Worker) (index : Nat) (date : Nat)
    (newTime : String) : Option (List Worker) :=
  if h : index < labours.length then
    let l := labours.get ⟨index, h⟩
    some (labours.set index { l with records := setTimeRecords l.records date newTime })
  else
    none

/-- Embedding of `removeLabour(index)` from `src/App.jsx`:
`labours.filter((_, i) => i !== index)` for an in-bounds index; `none`
when the index is out of bounds (the app would throw reading
`labours[index].name` for the confirmation dialog). -/
def removeLabour (labours : List Worker) (index : Nat) :
    Option (List Worker) :=
  if index < labours.length then
    some (((labours.enum).filter (fun p => p.1 ≠ index)).map Prod.snd)
  else
    none

/-- One drawing instruction of the report: a text placed at fixed
coordinates on a page, or a page break. -/
inductive DrawInstr where
  | placeText (text : String) (x : Nat) (y : Nat) (page : Nat) : DrawInstr
  | pageBreak : DrawInstr
deriving DecidableEq, Repr

/-- The six `doc.text` calls of one statistics row, at the fixed column
abscissas `[14, 70, 110, 140, 170, 200]`. -/
def rowTexts (s : WorkerStats) (y page : Nat) : List DrawInstr :=
  [DrawInstr.placeText s.name 14 y page,
   DrawInstr.placeText (toString s.present) 70 y page,
   DrawInstr.placeText (toString s.absent) 110 y page,
   DrawInstr.placeText (toString s.late) 140 y page,
   DrawInstr.placeText (toString s.workingDays) 170 y page,
   DrawInstr.placeText (toString s.sundays) 200 y page]

/-- The `stats.forEach` loop of `generatePDF`: draw each row at the
current vertical position, advance by 8, and after a row that pushes the
position past 280 emit a page break and restart at 20 on the next page. -/
def rowsFrom : List WorkerStats → Nat → Nat → List DrawInstr
  | [], _, _ => []
  | s :: rest, y, page =>
    rowTexts s y page ++
      (if y + 8 > 280 then
        DrawInstr.pageBreak :: rowsFrom rest 20 (page + 1)
      else
        rowsFrom rest (y + 8) page)

/-- The layout part of `generatePDF` from `src/App.jsx`: title, period
subtitle, working-days line, the single header row at `y = 40`, then the
statistics rows starting at `y = 48`. -/
def renderReport (startStr endStr : String) (dr : RangeInfo)
    (stats : List WorkerStats) : List DrawInstr :=
  [DrawInstr.placeText "Labour Attendance Report" 14 18 0,
   DrawInstr.placeText ("Period: " ++ startStr ++ " — " ++ endStr) 14 26 0,
   DrawInstr.placeText
     ("Working days: " ++ toString dr.workingDays ++ " | Sundays: "
       ++ toString dr.sundays) 14 32 0,
   DrawInstr.placeText "Name" 14 40 0,
   DrawInstr.placeText "Present" 70 40 0,
   DrawInstr.placeText "Absent" 110 40 0,
   DrawInstr.placeText "Late Days" 140 40 0,
   DrawInstr.placeText "Working" 170 40 0,
   DrawInstr.placeText "Sundays" 200 40 0]
  ++ rowsFrom stats 48 0

/-- Specification-level view: whether the worker's records hold a
`Present` record for day `d`. -/
def isPresentOn (recs : List (Nat × AttendanceRecord)) (d : Nat) : Bool :=
  match recs.lookup d with
  | some r => r.status = Status.Present
  | none => false

/-- Specification-level view: whether day `d` counts as a late day — a
`Present` record whose time is non-empty (truthy) and differs from the
canonical on-time value `09:00`. -/
def isLateOn (recs : List (Nat × AttendanceRecord)) (d : Nat) : Bool :=
  match recs.lookup d with
  | some r => r.status = Status.Present && r.time ≠ "" && r.time ≠ "09:00"
  | none => false

/-- Status of a worker on a date, a missing record meaning `Absent`. -/
def getStatus (w : Worker) (d : Nat) : Status :=
  ((w.records.lookup d).getD ⟨Status.Absent, "09:00"⟩).status

/-- Arrival time of a worker on a date, a missing record meaning the
default `09:00`. -/
def getTime (w : Worker) (d : Nat) : String :=
  ((w.records.lookup d).getD ⟨Status.Absent, "09:00"⟩).time

/-- Specification-level vertical position of statistics row `i`: rows
0–29 sit on the first page at `48, 56, …, 280`; later pages hold 33 rows
each at `20, 28, …, 276`. -/
def rowY (i : Nat) : Nat :=
  if i < 30 then 48 + 8 * i else 20 + 8 * ((i - 30) % 33)

/-- Specification-level page index of statistics row `i`. -/
def rowPage (i : Nat) : Nat :=
  if i < 30 then 0 else (i - 30) / 33 + 1

/-- Closed-form layout of the statistics rows: row `i` is drawn at
`(rowY i, rowPage i)`, followed by a page break exactly when the next
vertical position would exceed the page-bottom threshold 280. -/
def rowsSpec : List WorkerStats → Nat → List DrawInstr
  | [], _ => []
  | s :: rest, i =>
    rowTexts s (rowY i) (rowPage i) ++
      (if rowY i + 8 > 280 then
        DrawInstr.pageBreak :: rowsSpec rest (i + 1)
      else
        rowsSpec rest (i + 1))

/-! ### Helper lemmas -/

theorem rangeMap_succ (n s : Nat) :
    (List.range (n + 1)).map (· + s) = s :: (List.range n).map (· + (s + 1)) := by
  rw [List.range_succ_eq_map, List.map_cons, List.map_map]
  simp only [Nat.zero_add]
  refine congrArg _ (List.map_congr_left fun k _ => ?_)
  simp only [Function.comp_apply, Nat.succ_eq_add_one]
  omega

theorem rangeCount_fst (n : Nat) : ∀ s, (rangeCount n s).1 = n := by
  induction n with
  | zero => intro s; rfl
  | succ n ih => intro s; simp [rangeCount, ih]

theorem rangeCount_snd (n : Nat) :
    ∀ s, (rangeCount n s).2 = ((List.range n).map (· + s)).countP isSundayDay := by
  induction n with
  | zero => intro s; rfl
  | succ n ih =>
    intro s
    rw [rangeMap_succ, List.countP_cons, ← ih (s + 1)]
    simp [rangeCount]

theorem statsCount_fst (recs : List (Nat × AttendanceRecord)) (n : Nat) :
    ∀ s, (statsCount recs n s).1 =
      ((List.range n).map (· + s)).countP (isPresentOn recs) := by
  induction n with
  | zero => intro s; rfl
  | succ n ih =>
    intro s
    rw [rangeMap_succ, List.countP_cons, ← ih (s + 1)]
    cases hl : recs.lookup s with
    | none => simp [statsCount, isPresentOn, hl]
    | some r =>
      by_cases hs : r.status = Status.Present <;>
        simp [statsCount, isPresentOn, hl, hs]

theorem statsCount_late (recs : List (Nat × AttendanceRecord)) (n : Nat) :
    ∀ s, (statsCount recs n s).2.2 =
      ((List.range n).map (· + s)).countP (isLateOn recs) := by
  induction n with
  | zero => intro s; rfl
  | succ n ih =>
    intro s
    rw [rangeMap_succ, List.countP_cons, ← ih (s + 1)]
    cases hl : recs.lookup s with
    | none => simp [statsCount, isLateOn, hl]
    | some r =>
      by_cases hs : r.status = Status.Present
      · by_cases ht : r.time = ""
        · simp [statsCount, isLateOn, hl, hs, ht]
        · by_cases ht9 : r.time = "09:00" <;>
            simp [statsCount, isLateOn, hl, hs, ht, ht9]
      · simp [statsCount, isLateOn, hl, hs]

theorem statsCount_absent (recs : List (Nat × AttendanceRecord)) (n : Nat) :
    ∀ s, (statsCount recs n s).2.1 =
      ((List.range n).map (· + s)).countP
        (fun d => !isPresentOn recs d && !isSundayDay d) := by
  induction n with
  | zero => intro s; rfl
  | succ n ih =>
    intro s
    rw [rangeMap_succ, List.countP_cons, ← ih (s + 1)]
    cases hl : recs.lookup s with
    | none =>
      cases hsun : isSundayDay s <;> simp [statsCount, isPresentOn, hl, hsun]
    | some r =>
      by_cases hs : r.status = Status.Present
      · simp [statsCount, isPresentOn, hl, hs]
      · cases hsun : isSundayDay s <;>
          simp [statsCount, isPresentOn, hl, hs, hsun]

theorem dateRangeDays_eq_some {d1 d2 : DateStr} {dr : RangeInfo}
    (h : dateRangeDays d1 d2 = some dr) :
    validDate d1 = true ∧ validDate d2 = true ∧ dayNumber d1 ≤ dayNumber d2 ∧
    dr.total = dayNumber d2 + 1 - dayNumber d1 ∧
    dr.sundays = (dayList (dayNumber d1) (dayNumber d2)).countP isSundayDay ∧
    dr.workingDays = dr.total - dr.sundays := by
  unfold dateRangeDays at h
  split_ifs at h with hc
  · simp only [Bool.and_eq_true, decide_eq_true_eq] at hc
    obtain ⟨⟨hv1, hv2⟩, hle⟩ := hc
    injection h with h
    subst h
    refine ⟨hv1, hv2, hle, ?_, ?_, ?_⟩
    · exact rangeCount_fst _ _
    · rw [rangeCount_snd, rangeCount_fst]
      rfl
    · rfl

theorem lookup_append_pair (recs : List (Nat × AttendanceRecord)) (k k' : Nat)
    (v : AttendanceRecord) (hne : k' ≠ k) :
    (recs ++ [(k, v)]).lookup k' = recs.lookup k' := by
  induction recs with
  | nil =>
    have hb : (k' == k) = false := by simp [hne]
    simp [List.lookup, hb]
  | cons p t ih =>
    cases p with
    | mk a b =>
      cases hb : k' == a <;> simp [List.lookup_cons, hb, ih]

theorem lookup_map_replace (recs : List (Nat × AttendanceRecord)) (k : Nat)
    (v : AttendanceRecord) :
    (recs.map (fun p => if p.1 = k then (k, v) else p)).lookup k =
      (recs.lookup k).map (fun _ => v) := by
  induction recs with
  | nil => simp [List.lookup]
  | cons p t ih =>
    cases p with
    | mk a b =>
      by_cases hka : a = k
      · simp [hka, List.lookup_cons]
      · have hb : (k == a) = false := by simp [Ne.symm hka]
        simp only [List.map_cons, if_neg hka, List.lookup_cons, hb, ih]

theorem lookup_map_replace_ne (recs : List (Nat × AttendanceRecord)) (k k' : Nat)
    (v : AttendanceRecord) (hne : k' ≠ k) :
    (recs.map (fun p => if p.1 = k then (k, v) else p)).lookup k' =
      recs.lookup k' := by
  induction recs with
  | nil => simp [List.lookup]
  | cons p t ih =>
    cases p with
    | mk a b =>
      by_cases hka : a = k
      · have hb : (k' == a) = false := by rw [hka]; simp [hne]
        simp only [List.map_cons, if_pos hka, List.lookup_cons, hb, ih]
        rw [hka] at hb
        simp only [List.lookup_cons, hb]
      · cases hb : k' == a <;>
          simp only [List.map_cons, if_neg hka, List.lookup_cons, hb, ih]

theorem lookup_append_none (recs : List (Nat × AttendanceRecord)) (k : Nat)
    (v : AttendanceRecord) (h : recs.lookup k = none) :
    (recs ++ [(k, v)]).lookup k = some v := by
  induction recs with
  | nil => simp [List.lookup]
  | cons p t ih =>
    cases p with
    | mk a b =>
      cases hb : k == a with
      | true => simp [List.lookup_cons, hb] at h
      | false =>
        simp only [List.lookup_cons, hb] at h
        simp only [List.cons_append, List.lookup_cons, hb]
        exact ih h

theorem lookup_setRec_self (recs : List (Nat × AttendanceRecord)) (k : Nat)
    (v : AttendanceRecord) : (setRec recs k v).lookup k = some v := by
  unfold setRec
  cases h : recs.lookup k with
  | none => exact lookup_append_none recs k v h
  | some w => rw [lookup_map_replace, h]; rfl

theorem lookup_setRec_ne (recs : List (Nat × AttendanceRecord)) (k k' : Nat)
    (v : AttendanceRecord) (hne : k' ≠ k) :
    (setRec recs k v).lookup k' = recs.lookup k' := by
  unfold setRec
  cases h : recs.lookup k with
  | none => exact lookup_append_pair recs k k' v hne
  | some w => exact lookup_map_replace_ne recs k k' v hne

theorem enumFrom_filter_ne_map (l : List Worker) : ∀ k i : Nat,
    ((List.enumFrom k l).filter (fun p => p.1 ≠ i)).map Prod.snd =
      if k ≤ i then l.take (i - k) ++ l.drop (i - k + 1) else l := by
  induction l with
  | nil => intro k i; simp [List.enumFrom]
  | cons a t ih =>
    intro k i
    simp only [List.enumFrom, List.filter_cons]
    by_cases hki : k = i
    · subst hki
      rw [if_neg (by simp), ih (k + 1) k]
      simp [Nat.not_succ_le_self]
    · rw [if_pos (by simp [hki]), List.map_cons, ih (k + 1) i]
      by_cases hle : k ≤ i
      · have h1 : k + 1 ≤ i := by omega
        rw [if_pos h1, if_pos hle,
          show i - k = (i - (k + 1)) + 1 from by omega,
          List.take_succ_cons, List.drop_succ_cons, List.cons_append]
      · rw [if_neg (by omega), if_neg hle]

theorem rowY_bounds (i : Nat) : 20 ≤ rowY i ∧ rowY i ≤ 280 := by
  unfold rowY
  split_ifs <;> omega

theorem rowStep_break {i : Nat} (h : rowY i + 8 > 280) :
    rowY (i + 1) = 20 ∧ rowPage (i + 1) = rowPage i + 1 := by
  simp only [rowY, rowPage] at h ⊢
  split_ifs at h ⊢ <;> omega

theorem rowStep_cont {i : Nat} (h : ¬rowY i + 8 > 280) :
    rowY (i + 1) = rowY i + 8 ∧ rowPage (i + 1) = rowPage i := by
  simp only [rowY, rowPage] at h ⊢
  split_ifs at h ⊢ <;> omega

theorem rowsFrom_eq_rowsSpec (l : List WorkerStats) :
    ∀ i, rowsFrom l (rowY i) (rowPage i) = rowsSpec l i := by
  induction l with
  | nil => intro i; rfl
  | cons s rest ih =>
    intro i
    simp only [rowsFrom, rowsSpec]
    by_cases h : rowY i + 8 > 280
    · obtain ⟨h1, h2⟩ := rowStep_break h
      rw [if_pos h, if_pos h, ← h1, ← h2, ih (i + 1)]
    · obtain ⟨h1, h2⟩ := rowStep_cont h
      rw [if_neg h, if_neg h, ← h1, ← h2, ih (i + 1)]

/-! ### Claim theorems -/

/-- Claim C2: for every valid range with start ≤ end, `dateRangeDays`
succeeds; `totalDays` equals the inclusive day count between the two
dates, `sundayCount` equals the number of Sundays in the range,
`workingDays = totalDays - sundayCount`, `totalDays = sundayCount +
workingDays`, and a single-day range yields `totalDays = 1`.  Dates are
identified with their day numbers, so the statement holds across
month/year boundaries and leap years. -/
theorem dateRangeDays_range_arithmetic (d1 d2 : DateStr)
    (h1 : validDate d1 = true) (h2 : validDate d2 = true)
    (hle : dayNumber d1 ≤ dayNumber d2) :
    dateRangeDays d1 d2 =
      some ⟨dayNumber d2 - dayNumber d1 + 1,
        (dayList (dayNumber d1) (dayNumber d2)).countP isSundayDay,
        (dayNumber d2 - dayNumber d1 + 1) -
          (dayList (dayNumber d1) (dayNumber d2)).countP isSundayDay⟩ ∧
    dayNumber d2 - dayNumber d1 + 1 =
      (dayList (dayNumber d1) (dayNumber d2)).countP isSundayDay +
        ((dayNumber d2 - dayNumber d1 + 1) -
          (dayList (dayNumber d1) (dayNumber d2)).countP isSundayDay) ∧
    (d1 = d2 → dayNumber d2 - dayNumber d1 + 1 = 1) := by
  have hc : (validDate d1 && validDate d2 &&
      decide (dayNumber d1 ≤ dayNumber d2)) = true := by
    rw [h1, h2]
    simp [hle]
  have e1 := rangeCount_fst (dayNumber d2 + 1 - dayNumber d1) (dayNumber d1)
  have e2 := rangeCount_snd (dayNumber d2 + 1 - dayNumber d1) (dayNumber d1)
  have e2' : (rangeCount (dayNumber d2 + 1 - dayNumber d1) (dayNumber d1)).2 =
      (dayList (dayNumber d1) (dayNumber d2)).countP isSundayDay := by
    rw [e2]
    rfl
  have hlen : (dayList (dayNumber d1) (dayNumber d2)).countP isSundayDay ≤
      dayNumber d2 + 1 - dayNumber d1 := by
    calc (dayList (dayNumber d1) (dayNumber d2)).countP isSundayDay
        ≤ (dayList (dayNumber d1) (dayNumber d2)).length :=
          List.countP_le_length _
      _ = dayNumber d2 + 1 - dayNumber d1 := by simp [dayList]
  refine ⟨?_, by omega, fun he => by subst he; omega⟩
  unfold dateRangeDays
  rw [if_pos hc]
  simp only [Option.some.injEq, RangeInfo.mk.injEq]
  refine ⟨by omega, e2', by rw [e2', e1]; omega⟩

/-- Claim C3: `dateRangeDays` fails (returns `none`, the embedding of the
invalid-range rejection) exactly when either date fails to parse as a
valid calendar date or when start > end, and `computeStats` propagates
that failure unchanged, returning no partial results. -/
theorem computeStats_range_error (labours : List Worker) (d1 d2 : DateStr) :
    (computeStats labours d1 d2 = none ↔ dateRangeDays d1 d2 = none) ∧
    (dateRangeDays d1 d2 = none ↔
      ¬(validDate d1 = true ∧ validDate d2 = true ∧
        dayNumber d1 ≤ dayNumber d2)) := by
  constructor
  · cases h : dateRangeDays d1 d2 <;> simp [computeStats, h]
  · unfold dateRangeDays
    by_cases hc : (validDate d1 && validDate d2 &&
        decide (dayNumber d1 ≤ dayNumber d2)) = true
    · rw [if_pos hc]
      simp only [Bool.and_eq_true, decide_eq_true_eq] at hc
      simp [hc.1.1, hc.1.2, hc.2]
    · rw [if_neg hc]
      simp only [Bool.and_eq_true, decide_eq_true_eq] at hc
      exact ⟨fun _ hcon => hc ⟨⟨hcon.1, hcon.2.1⟩, hcon.2.2⟩, fun _ => rfl⟩

/-- Claim C6: `addLabour` trims whitespace, rejects an empty trimmed name
with the empty-name failure, rejects a trimmed name exactly matching an
existing worker with the duplicate-name failure (in both cases producing
no new roster, so the roster is unchanged), and otherwise appends a new
worker with an empty record mapping, preserving the existing entries and
their order. -/
theorem addLabour_spec (labours : List Worker) (nm : String) :
    (jsTrim nm = "" →
      addLabour labours nm = Except.error AddError.emptyName) ∧
    (jsTrim nm ≠ "" → (∃ w ∈ labours, w.name = jsTrim nm) →
      addLabour labours nm = Except.error AddError.duplicateName) ∧
    (jsTrim nm ≠ "" → (∀ w ∈ labours, w.name ≠ jsTrim nm) →
      addLabour labours nm = Except.ok (labours ++ [⟨jsTrim nm, []⟩])) := by
  refine ⟨fun h => ?_, fun h hd => ?_, fun h hn => ?_⟩
  · simp [addLabour, h]
  · have ha : labours.any (fun l => l.name = jsTrim nm) = true := by
      rw [List.any_eq_true]
      obtain ⟨w, hw, he⟩ := hd
      refine ⟨w, hw, ?_⟩
      simp [he]
    simp [addLabour, h, ha]
  · have ha : ¬(labours.any (fun l => l.name = jsTrim nm) = true) := by
      rw [List.any_eq_true]
      rintro ⟨w, hw, he⟩
      exact hn w hw (by simpa using he)
    simp [addLabour, h, ha]

/-- Claim C7: `removeLabour` fails (no new roster produced, so the roster
is unchanged) when the index is out of `[0, length)`; for an in-bounds
index it returns the roster with exactly that entry excised and the order
of the remaining entries preserved. -/
theorem removeLabour_spec (labours : List Worker) (index : Nat) :
    (labours.length ≤ index → removeLabour labours index = none) ∧
    (index < labours.length →
      removeLabour labours index =
        some (labours.take index ++ labours.drop (index + 1))) := by
  constructor
  · intro h
    simp [removeLabour, Nat.not_lt.mpr h]
  · intro h
    simp only [removeLabour, if_pos h, List.enum]
    rw [enumFrom_filter_ne_map]
    rw [if_pos (Nat.zero_le _)]
    simp

theorem countP_not_add (l : List Nat) (p : Nat → Bool) :
    l.countP (fun a => !p a) + l.countP p = l.length := by
  have h := List.length_eq_countP_add_countP (p := p) (l := l)
  have hc : l.countP (fun a => decide (¬p a = true)) =
      l.countP (fun a => !p a) :=
    List.countP_congr (by intro a _; cases p a <;> simp)
  omega

theorem isLateOn_imp_isPresentOn (recs : List (Nat × AttendanceRecord))
    (d : Nat) (h : isLateOn recs d = true) : isPresentOn recs d = true := by
  unfold isLateOn at h
  unfold isPresentOn
  cases hl : recs.lookup d with
  | none => rw [hl] at h; exact absurd h (by simp)
  | some r =>
    rw [hl] at h
    simp only [Bool.and_eq_true] at h
    exact h.1.1

theorem computeStats_eq_some {labours : List Worker} {d1 d2 : DateStr}
    {dr : RangeInfo} {stats : List WorkerStats}
    (h : computeStats labours d1 d2 = some (dr, stats)) :
    dateRangeDays d1 d2 = some dr ∧
    stats = labours.map (fun lab =>
      ⟨lab.name,
        (dayList (dayNumber d1) (dayNumber d2)).countP (isPresentOn lab.records),
        (dayList (dayNumber d1) (dayNumber d2)).countP
          (fun d => !isPresentOn lab.records d && !isSundayDay d),
        (dayList (dayNumber d1) (dayNumber d2)).countP (isLateOn lab.records),
        dr.workingDays, dr.sundays⟩) := by
  unfold computeStats at h
  cases hdr : dateRangeDays d1 d2 with
  | none => rw [hdr] at h; exact absurd h (by simp)
  | some dr' =>
    rw [hdr] at h
    simp only [Option.some.injEq, Prod.mk.injEq] at h
    obtain ⟨rfl, rfl⟩ := h
    refine ⟨rfl, ?_⟩
    apply List.map_congr_left
    intro lab _
    simp only [statsCount_fst, statsCount_late, statsCount_absent, dayList]

/-- Claim C1 (amended): for every roster snapshot and valid date range,
`computeStats` returns one row per worker in roster order, where
`presentDays` counts the enumerated days carrying a `Present` record,
`lateDays` counts those whose record additionally has a non-empty
arrival time differing from `09:00`, and `absentDays` counts the
remaining days (no record, or record not `Present`) that are not
Sundays. -/
theorem computeStats_per_worker_counts (labours : List Worker)
    (d1 d2 : DateStr) (dr : RangeInfo) (stats : List WorkerStats) (i : Nat)
    (h : computeStats labours d1 d2 = some (dr, stats))
    (hi : i < labours.length) (hi' : i < stats.length) :
    stats.length = labours.length ∧
    stats.get ⟨i, hi'⟩ =
      { name := (labours.get ⟨i, hi⟩).name
        present := (dayList (dayNumber d1) (dayNumber d2)).countP
          (isPresentOn (labours.get ⟨i, hi⟩).records)
        absent := (dayList (dayNumber d1) (dayNumber d2)).countP
          (fun d => !isPresentOn (labours.get ⟨i, hi⟩).records d &&
            !isSundayDay d)
        late := (dayList (dayNumber d1) (dayNumber d2)).countP
          (isLateOn (labours.get ⟨i, hi⟩).records)
        workingDays := dr.workingDays
        sundays := dr.sundays } := by
  obtain ⟨hdr, hstats⟩ := computeStats_eq_some h
  subst hstats
  exact ⟨by simp, by rw [List.get_map]⟩

/-- Claim C4: a worker with no records over the range gets
`presentDays = 0`, `lateDays = 0` and `absentDays = workingDays`; over a
range consisting entirely of Sundays every worker gets `absentDays = 0`
regardless of records. -/
theorem computeStats_edge_cases (labours : List Worker) (d1 d2 : DateStr)
    (dr : RangeInfo) (stats : List WorkerStats) (i : Nat)
    (h : computeStats labours d1 d2 = some (dr, stats))
    (hi : i < labours.length) (hi' : i < stats.length) :
    ((∀ d ∈ dayList (dayNumber d1) (dayNumber d2),
        (labours.get ⟨i, hi⟩).records.lookup d = none) →
      (stats.get ⟨i, hi'⟩).present = 0 ∧ (stats.get ⟨i, hi'⟩).late = 0 ∧
        (stats.get ⟨i, hi'⟩).absent = dr.workingDays) ∧
    ((∀ d ∈ dayList (dayNumber d1) (dayNumber d2), isSundayDay d = true) →
      (stats.get ⟨i, hi'⟩).absent = 0) := by
  obtain ⟨hdr, hstats⟩ := computeStats_eq_some h
  obtain ⟨hv1, hv2, hle, htot, hsun, hwork⟩ := dateRangeDays_eq_some hdr
  subst hstats
  rw [List.get_map]
  constructor
  · intro hz
    simp only [List.get_eq_getElem] at hz
    refine ⟨?_, ?_, ?_⟩
    · apply List.countP_eq_zero.mpr
      intro d hd
      simp [isPresentOn, hz d hd]
    · apply List.countP_eq_zero.mpr
      intro d hd
      simp [isLateOn, hz d hd]
    · have h1 : (dayList (dayNumber d1) (dayNumber d2)).countP
          (fun d => !isPresentOn (labours.get ⟨i, hi⟩).records d &&
            !isSundayDay d) =
          (dayList (dayNumber d1) (dayNumber d2)).countP
            (fun d => !isSundayDay d) := by
        apply List.countP_congr
        intro d hd
        simp [isPresentOn, hz d hd]
      have h2 := countP_not_add (dayList (dayNumber d1) (dayNumber d2))
        isSundayDay
      have h3 : (dayList (dayNumber d1) (dayNumber d2)).length =
          dayNumber d2 + 1 - dayNumber d1 := by simp [dayList]
      simp only [h1]
      omega
  · intro hs
    apply List.countP_eq_zero.mpr
    intro d hd
    simp [hs d hd]

/-- Claim C10: every statistics row satisfies `lateDays ≤ presentDays`,
`absentDays ≤ workingDays` and `presentDays + absentDays ≤ totalDays`. -/
theorem computeStats_stat_bounds (labours : List Worker) (d1 d2 : DateStr)
    (dr : RangeInfo) (stats : List WorkerStats) (ws : WorkerStats)
    (h : computeStats labours d1 d2 = some (dr, stats)) (hws : ws ∈ stats) :
    ws.late ≤ ws.present ∧ ws.absent ≤ dr.workingDays ∧
      ws.present + ws.absent ≤ dr.total := by
  obtain ⟨hdr, hstats⟩ := computeStats_eq_some h
  obtain ⟨hv1, hv2, hle, htot, hsun, hwork⟩ := dateRangeDays_eq_some hdr
  subst hstats
  obtain ⟨lab, hlab, rfl⟩ := List.mem_map.mp hws
  have h3 : (dayList (dayNumber d1) (dayNumber d2)).length =
      dayNumber d2 + 1 - dayNumber d1 := by simp [dayList]
  refine ⟨?_, ?_, ?_⟩
  · apply List.countP_mono_left
    intro d _ hd
    exact isLateOn_imp_isPresentOn _ _ hd
  · have hmono : (dayList (dayNumber d1) (dayNumber d2)).countP
        (fun d => !isPresentOn lab.records d && !isSundayDay d) ≤
        (dayList (dayNumber d1) (dayNumber d2)).countP
          (fun d => !isSundayDay d) := by
      apply List.countP_mono_left
      intro d _ hd
      simp only [Bool.and_eq_true] at hd
      exact hd.2
    have h2 := countP_not_add (dayList (dayNumber d1) (dayNumber d2))
      isSundayDay
    simp only at hmono ⊢
    omega
  · have hmono : (dayList (dayNumber d1) (dayNumber d2)).countP
        (fun d => !isPresentOn lab.records d && !isSundayDay d) ≤
        (dayList (dayNumber d1) (dayNumber d2)).countP
          (fun d => !isPresentOn lab.records d) := by
      apply List.countP_mono_left
      intro d _ hd
      simp only [Bool.and_eq_true] at hd
      exact hd.1
    have h2 := countP_not_add (dayList (dayNumber d1) (dayNumber d2))
      (isPresentOn lab.records)
    simp only at hmono ⊢
    omega

theorem toggleRecord_twice (recs : List (Nat × AttendanceRecord)) (date : Nat) :
    ((toggleRecord (toggleRecord recs date) date).lookup date).getD
        ⟨Status.Absent, "09:00"⟩ =
      (recs.lookup date).getD ⟨Status.Absent, "09:00"⟩ := by
  simp only [toggleRecord, lookup_setRec_self, Option.getD_some]
  obtain ⟨st, t⟩ := (recs.lookup date).getD ⟨Status.Absent, "09:00"⟩
  cases st <;> simp

theorem setTimeRecords_lookup_self (recs : List (Nat × AttendanceRecord))
    (date : Nat) (newTime : String) :
    (setTimeRecords recs date newTime).lookup date =
      some ⟨((recs.lookup date).getD ⟨Status.Absent, "09:00"⟩).status,
        newTime⟩ := by
  unfold setTimeRecords
  cases h : recs.lookup date with
  | none => simp [h, lookup_setRec_self]
  | some r => simp [h, lookup_setRec_self]

theorem setTimeRecords_lookup_ne (recs : List (Nat × AttendanceRecord))
    (date : Nat) (newTime : String) (d : Nat) (hne : d ≠ date) :
    (setTimeRecords recs date newTime).lookup d = recs.lookup d := by
  unfold setTimeRecords
  cases h : recs.lookup date with
  | none => simp [h, lookup_setRec_self, lookup_setRec_ne _ _ _ _ hne]
  | some r => simp [h, lookup_setRec_ne _ _ _ _ hne]

/-- Claim C5: toggling the status twice in a row on the same date returns
the worker to their original status (a missing record counting as
`Absent`) with the arrival time unchanged (a missing record counting as
the default `09:00`). -/
theorem togglePresent_twice (labours : List Worker) (index date : Nat)
    (r r' : List Worker) (hi : index < labours.length)
    (h1 : togglePresent labours index date = some r)
    (h2 : togglePresent r index date = some r')
    (hi' : index < r'.length) :
    r'.length = labours.length ∧
    getStatus (r'.get ⟨index, hi'⟩) date =
      getStatus (labours.get ⟨index, hi⟩) date ∧
    getTime (r'.get ⟨index, hi'⟩) date =
      getTime (labours.get ⟨index, hi⟩) date := by
  unfold togglePresent at h1 h2
  rw [dif_pos hi] at h1
  injection h1 with h1
  have hir : index < r.length := by
    rw [← h1]
    simpa using hi
  rw [dif_pos hir] at h2
  injection h2 with h2
  subst h1
  subst h2
  refine ⟨by simp, ?_, ?_⟩
  · simp only [getStatus, List.get_eq_getElem, List.getElem_set_self]
    rw [toggleRecord_twice]
  · simp only [getTime, List.get_eq_getElem, List.getElem_set_self]
    rw [toggleRecord_twice]

/-- Claim C8: for every roster and in-bounds index, `changeTime` leaves
every other worker untouched, keeps the worker's name, stores a record
for the date whose status is the previous status (`Absent` when no
record existed) and whose time is the given time, and leaves the
records of every other date unchanged. -/
theorem changeTime_spec (labours : List Worker) (index date : Nat)
    (newTime : String) (r : List Worker) (hi : index < labours.length)
    (h : changeTime labours index date newTime = some r)
    (hir : index < r.length) :
    r.length = labours.length ∧
    (∀ j (hj : j < labours.length) (hjr : j < r.length), j ≠ index →
      r.get ⟨j, hjr⟩ = labours.get ⟨j, hj⟩) ∧
    (r.get ⟨index, hir⟩).name = (labours.get ⟨index, hi⟩).name ∧
    (r.get ⟨index, hir⟩).records.lookup date =
      some ⟨getStatus (labours.get ⟨index, hi⟩) date, newTime⟩ ∧
    (∀ d, d ≠ date →
      (r.get ⟨index, hir⟩).records.lookup d =
        (labours.get ⟨index, hi⟩).records.lookup d) := by
  unfold changeTime at h
  rw [dif_pos hi] at h
  injection h with h
  subst h
  refine ⟨by simp, ?_, ?_, ?_, ?_⟩
  · intro j hj hjr hne
    simp only [List.get_eq_getElem]
    exact List.getElem_set_ne (Ne.symm hne) _
  · simp only [List.get_eq_getElem, List.getElem_set_self]
  · simp only [List.get_eq_getElem, List.getElem_set_self, getStatus]
    exact setTimeRecords_lookup_self _ _ _
  · intro d hd
    simp only [List.get_eq_getElem, List.getElem_set_self]
    exact setTimeRecords_lookup_ne _ _ _ _ hd

/-- Claim C9: the report consists of a title line, a subtitle with the
literal start/end dates, a workingDays/sundayCount line, and a header
row of six fixed labels at the six fixed column positions — all emitted
once, on the first page only — followed by one six-column row per
statistics entry in input order, where row `i` sits at vertical position
`rowY i` on page `rowPage i` and a page break is emitted exactly when
the next vertical position would exceed the page-bottom threshold 280;
every row position stays within `[20, 280]`. -/
theorem renderReport_layout (startStr endStr : String) (dr : RangeInfo)
    (stats : List WorkerStats) :
    renderReport startStr endStr dr stats =
      [DrawInstr.placeText "Labour Attendance Report" 14 18 0,
       DrawInstr.placeText ("Period: " ++ startStr ++ " — " ++ endStr) 14 26 0,
       DrawInstr.placeText
         ("Working days: " ++ toString dr.workingDays ++ " | Sundays: "
           ++ toString dr.sundays) 14 32 0,
       DrawInstr.placeText "Name" 14 40 0,
       DrawInstr.placeText "Present" 70 40 0,
       DrawInstr.placeText "Absent" 110 40 0,
       DrawInstr.placeText "Late Days" 140 40 0,
       DrawInstr.placeText "Working" 170 40 0,
       DrawInstr.placeText "Sundays" 200 40 0]
      ++ rowsSpec stats 0 ∧
    ∀ i, 20 ≤ rowY i ∧ rowY i ≤ 280 := by
  constructor
  · have h0 : rowY 0 = 48 := by simp [rowY]
    have h1 : rowPage 0 = 0 := by simp [rowPage]
    unfold renderReport
    rw [← rowsFrom_eq_rowsSpec stats 0, h0, h1]
  · exact rowY_bounds

/-- Counterexample to claim C1 as stated: with a `Present` record whose
arrival time is the empty string (reachable through `changeTime` with an
empty time value), the claimed rule predicts one late day (the empty
time differs from `09:00`), but `computeStats` counts zero late days,
because the code only counts a late day when the stored time is truthy
(non-empty) and differs from `09:00`. -/
theorem computeStats_late_empty_time_cex :
    computeStats [⟨"W", [(739253, ⟨Status.Present, ""⟩)]⟩]
        ⟨2024, 1, 3⟩ ⟨2024, 1, 3⟩ =
      some (⟨1, 0, 1⟩, [⟨"W", 1, 0, 0, 1, 0⟩]) ∧
    (dayList (dayNumber ⟨2024, 1, 3⟩) (dayNumber ⟨2024, 1, 3⟩)).countP
      (fun d =>
        isPresentOn [(739253, ⟨Status.Present, ""⟩)] d &&
          (getTime ⟨"W", [(739253, ⟨Status.Present, ""⟩)]⟩ d ≠ "09:00")) = 1 := by
  constructor
  · decide
  · decide

/-- Witness for claim C2 at the leap-year month boundary
2024-02-28 … 2024-03-01 (three days, no Sunday) and at the single-day
Sunday range 2024-01-07. -/
theorem dateRangeDays_range_arithmetic_witness :
    dateRangeDays ⟨2024, 2, 28⟩ ⟨2024, 3, 1⟩ = some ⟨3, 0, 3⟩ ∧
    dateRangeDays ⟨2024, 1, 7⟩ ⟨2024, 1, 7⟩ = some ⟨1, 1, 0⟩ ∧
    dayNumber ⟨2024, 1, 7⟩ - dayNumber ⟨2024, 1, 7⟩ + 1 = 1 := by
  have ha := dateRangeDays_range_arithmetic ⟨2024, 2, 28⟩ ⟨2024, 3, 1⟩
    (by decide) (by decide) (by decide)
  have hb := dateRangeDays_range_arithmetic ⟨2024, 1, 7⟩ ⟨2024, 1, 7⟩
    (by decide) (by decide) (by decide)
  exact ⟨ha.1, hb.1, hb.2.2 rfl⟩

/-- Witness for claim C1 (amended) on the spec's scenario roster
(`Asha`, `Present 09:00` on 2024-01-03, `Present 10:30` on 2024-01-04,
range 2024-01-01 … 2024-01-07). -/
theorem computeStats_per_worker_counts_witness :
    ([⟨"Asha", 2, 4, 1, 6, 1⟩] : List WorkerStats).get ⟨0, by decide⟩ =
      { name := "Asha",
        present := (dayList 739251 739257).countP
          (isPresentOn [(739253, ⟨Status.Present, "09:00"⟩),
            (739254, ⟨Status.Present, "10:30"⟩)]),
        absent := (dayList 739251 739257).countP
          (fun d => !isPresentOn [(739253, ⟨Status.Present, "09:00"⟩),
            (739254, ⟨Status.Present, "10:30"⟩)] d && !isSundayDay d),
        late := (dayList 739251 739257).countP
          (isLateOn [(739253, ⟨Status.Present, "09:00"⟩),
            (739254, ⟨Status.Present, "10:30"⟩)]),
        workingDays := 6,
        sundays := 1 } :=
  (computeStats_per_worker_counts
    [⟨"Asha", [(739253, ⟨Status.Present, "09:00"⟩),
      (739254, ⟨Status.Present, "10:30"⟩)]⟩]
    ⟨2024, 1, 1⟩ ⟨2024, 1, 7⟩ ⟨7, 1, 6⟩ [⟨"Asha", 2, 4, 1, 6, 1⟩] 0
    (by decide) (by decide) (by decide)).2

/-- Witness for claim C4: a record-free worker over 2024-01-01 …
2024-01-07 gets `absent = workingDays = 6`, and over the all-Sunday
range 2024-01-07 … 2024-01-07 a worker (with a record on that Sunday)
gets `absent = 0`. -/
theorem computeStats_edge_cases_witness :
    (([⟨"Asha", 0, 6, 0, 6, 1⟩] : List WorkerStats).get
      ⟨0, by decide⟩).present = 0 ∧
    (([⟨"Asha", 0, 6, 0, 6, 1⟩] : List WorkerStats).get
      ⟨0, by decide⟩).late = 0 ∧
    (([⟨"Asha", 0, 6, 0, 6, 1⟩] : List WorkerStats).get
      ⟨0, by decide⟩).absent = (⟨7, 1, 6⟩ : RangeInfo).workingDays ∧
    (([⟨"Sun", 0, 0, 0, 0, 1⟩] : List WorkerStats).get
      ⟨0, by decide⟩).absent = 0 := by
  have hA := computeStats_edge_cases [⟨"Asha", []⟩] ⟨2024, 1, 1⟩
    ⟨2024, 1, 7⟩ ⟨7, 1, 6⟩ [⟨"Asha", 0, 6, 0, 6, 1⟩] 0
    (by decide) (by decide) (by decide)
  have h1 := hA.1 (by decide)
  have hB := computeStats_edge_cases
    [⟨"Sun", [(739257, ⟨Status.Absent, "08:00"⟩)]⟩] ⟨2024, 1, 7⟩
    ⟨2024, 1, 7⟩ ⟨1, 1, 0⟩ [⟨"Sun", 0, 0, 0, 0, 1⟩] 0
    (by decide) (by decide) (by decide)
  exact ⟨h1.1, h1.2.1, h1.2.2, hB.2 (by decide)⟩

/-- Witness for claim C10 on the scenario statistics row
`⟨Asha, 2, 4, 1, 6, 1⟩` of the 2024-01-01 … 2024-01-07 range. -/
theorem computeStats_stat_bounds_witness :
    (⟨"Asha", 2, 4, 1, 6, 1⟩ : WorkerStats).late ≤
      (⟨"Asha", 2, 4, 1, 6, 1⟩ : WorkerStats).present ∧
    (⟨"Asha", 2, 4, 1, 6, 1⟩ : WorkerStats).absent ≤
      (⟨7, 1, 6⟩ : RangeInfo).workingDays ∧
    (⟨"Asha", 2, 4, 1, 6, 1⟩ : WorkerStats).present +
      (⟨"Asha", 2, 4, 1, 6, 1⟩ : WorkerStats).absent ≤
      (⟨7, 1, 6⟩ : RangeInfo).total :=
  computeStats_stat_bounds
    [⟨"Asha", [(739253, ⟨Status.Present, "09:00"⟩),
      (739254, ⟨Status.Present, "10:30"⟩)]⟩]
    ⟨2024, 1, 1⟩ ⟨2024, 1, 7⟩ ⟨7, 1, 6⟩ [⟨"Asha", 2, 4, 1, 6, 1⟩]
    ⟨"Asha", 2, 4, 1, 6, 1⟩ (by decide) (by decide)

/-- Witness for claim C5: toggling worker `A` twice on date 5 starting
from no record ends `Absent` with time `09:00`, matching the original
defaults. -/
theorem togglePresent_twice_witness :
    ([⟨"A", [(5, ⟨Status.Absent, "09:00"⟩)]⟩] : List Worker).length =
      ([⟨"A", []⟩] : List Worker).length ∧
    getStatus (([⟨"A", [(5, ⟨Status.Absent, "09:00"⟩)]⟩] : List Worker).get
      ⟨0, by decide⟩) 5 =
      getStatus (([⟨"A", []⟩] : List Worker).get ⟨0, by decide⟩) 5 ∧
    getTime (([⟨"A", [(5, ⟨Status.Absent, "09:00"⟩)]⟩] : List Worker).get
      ⟨0, by decide⟩) 5 =
      getTime (([⟨"A", []⟩] : List Worker).get ⟨0, by decide⟩) 5 :=
  togglePresent_twice [⟨"A", []⟩] 0 5
    [⟨"A", [(5, ⟨Status.Present, "09:00"⟩)]⟩]
    [⟨"A", [(5, ⟨Status.Absent, "09:00"⟩)]⟩]
    (by decide) (by decide) (by decide) (by decide)

/-- Witness for claim C8: changing worker `B`'s time on date 7 to
`10:15` keeps worker `A` and date 9 untouched and stores the old status
with the new time. -/
theorem changeTime_spec_witness :
    ([⟨"A", []⟩, ⟨"B", [(7, ⟨Status.Present, "10:15"⟩)]⟩] :
      List Worker).length =
      ([⟨"A", []⟩, ⟨"B", [(7, ⟨Status.Present, "09:00"⟩)]⟩] :
        List Worker).length ∧
    ([⟨"A", []⟩, ⟨"B", [(7, ⟨Status.Present, "10:15"⟩)]⟩] :
      List Worker).get ⟨0, by decide⟩ =
      ([⟨"A", []⟩, ⟨"B", [(7, ⟨Status.Present, "09:00"⟩)]⟩] :
        List Worker).get ⟨0, by decide⟩ ∧
    (([⟨"A", []⟩, ⟨"B", [(7, ⟨Status.Present, "10:15"⟩)]⟩] :
      List Worker).get ⟨1, by decide⟩).name =
      (([⟨"A", []⟩, ⟨"B", [(7, ⟨Status.Present, "09:00"⟩)]⟩] :
        List Worker).get ⟨1, by decide⟩).name ∧
    (([⟨"A", []⟩, ⟨"B", [(7, ⟨Status.Present, "10:15"⟩)]⟩] :
      List Worker).get ⟨1, by decide⟩).records.lookup 7 =
      some ⟨getStatus (([⟨"A", []⟩, ⟨"B", [(7, ⟨Status.Present, "09:00"⟩)]⟩] :
        List Worker).get ⟨1, by decide⟩) 7, "10:15"⟩ ∧
    (([⟨"A", []⟩, ⟨"B", [(7, ⟨Status.Present, "10:15"⟩)]⟩] :
      List Worker).get ⟨1, by decide⟩).records.lookup 9 =
      (([⟨"A", []⟩, ⟨"B", [(7, ⟨Status.Present, "09:00"⟩)]⟩] :
        List Worker).get ⟨1, by decide⟩).records.lookup 9 := by
  have hmain := changeTime_spec
    [⟨"A", []⟩, ⟨"B", [(7, ⟨Status.Present, "09:00"⟩)]⟩]
    1 7 "10:15" [⟨"A", []⟩, ⟨"B", [(7, ⟨Status.Present, "10:15"⟩)]⟩]
    (by decide) (by decide) (by decide)
  exact ⟨hmain.1, hmain.2.1 0 (by decide) (by decide) (by decide),
    hmain.2.2.1, hmain.2.2.2.1, hmain.2.2.2.2 9 (by decide)⟩

/-- Witness for claim C6: on a roster holding `Asha`, a blank name is
rejected as empty, `" Asha "` is rejected as a duplicate after
trimming, and `" Ravi "` is appended trimmed. -/
theorem addLabour_spec_witness :
    addLabour [⟨"Asha", []⟩] "   " = Except.error AddError.emptyName ∧
    addLabour [⟨"Asha", []⟩] " Asha " =
      Except.error AddError.duplicateName ∧
    addLabour [⟨"Asha", []⟩] " Ravi " =
      Except.ok ([⟨"Asha", []⟩] ++ [⟨jsTrim " Ravi ", []⟩]) ∧
    jsTrim " Ravi " = "Ravi" :=
  ⟨(addLabour_spec [⟨"Asha", []⟩] "   ").1 (by decide),
   (addLabour_spec [⟨"Asha", []⟩] " Asha ").2.1 (by decide) (by decide),
   (addLabour_spec [⟨"Asha", []⟩] " Ravi ").2.2 (by decide) (by decide),
   by decide⟩

/-- Witness for claim C7: removing index 5 from a two-worker roster
fails; removing index 0 excises exactly the first worker. -/
theorem removeLabour_spec_witness :
    removeLabour [⟨"A", []⟩, ⟨"B", []⟩] 5 = none ∧
    removeLabour [⟨"A", []⟩, ⟨"B", []⟩] 0 = some [⟨"B", []⟩] :=
  ⟨(removeLabour_spec [⟨"A", []⟩, ⟨"B", []⟩] 5).1 (by decide),
   (removeLabour_spec [⟨"A", []⟩, ⟨"B", []⟩] 0).2 (by decide)⟩

end Attendance
